import Mathlib

/-!
Verification of the Hail type-algebra module (hail/expr/types.py): the Type
Node hierarchy, structural equality, the named-variable unification engine,
the type-directed JSON codec, the value-conformance checker and the display
printer with its grammar parser.  Python classes become an inductive type;
the mutable Box registry becomes explicit state passing; Python exceptions
become an `Except` monad; Python `None` is the `null` value constructor.
-/

/-- Constraint tags a type variable may carry, from `tvariable._cond_map`. -/
inductive CondTag where
  | numeric
  | int32
  | int64
  | float32
  | float64
  | locus
  | struct
  | union
  | tuple
deriving DecidableEq, Repr

/-- The Type Node algebra: one constructor per `HailType` subclass of
types.py.  Struct and union fields are the ordered keyword-argument mapping
(`_field_types` / `_case_types`); Python keyword arguments make the names
pairwise distinct.  `tndarray`'s ndim is kept as a concrete literal
(`NatLiteral`); `tvariable` carries its name and optional constraint tag. -/
inductive HailType where
  | tvoid
  | tint32
  | tint64
  | tfloat32
  | tfloat64
  | tstr
  | tbool
  | tcall
  | tarray (element_type : HailType)
  | tset (element_type : HailType)
  | tdict (key_type value_type : HailType)
  | tstruct (fields : List (String × HailType))
  | tunion (cases : List (String × HailType))
  | ttuple (types : List HailType)
  | tinterval (point_type : HailType)
  | tlocus (reference_genome : String)
  | tndarray (element_type : HailType) (ndim : Nat)
  | tvariable (name : String) (cond : Option CondTag)
deriving Repr

/-- Index of a Type Node's head constructor (used to state that structural
equality only relates nodes of the same variant). -/
def ctorIdx : HailType → Nat
  | .tvoid => 0
  | .tint32 => 1
  | .tint64 => 2
  | .tfloat32 => 3
  | .tfloat64 => 4
  | .tstr => 5
  | .tbool => 6
  | .tcall => 7
  | .tarray _ => 8
  | .tset _ => 9
  | .tdict _ _ => 10
  | .tstruct _ => 11
  | .tunion _ => 12
  | .ttuple _ => 13
  | .tinterval _ => 14
  | .tlocus _ => 15
  | .tndarray _ _ => 16
  | .tvariable _ _ => 17

mutual

/-- Python `==` on Type Nodes: `HailType.__eq__` dispatches to each
subclass's `_eq`.  Each `_eq` is an `isinstance` check plus comparison of the
payload; `tndarray._eq` compares only element types (not ndim);
`tvariable` defines no `_eq`, so the abstract method returns `None`
(falsy) and two variables never compare equal.  Struct/union `_eq` compares
the field-name tuples and then each field's type; with the pairwise-distinct
names produced by keyword arguments that is the positional comparison
implemented by `heqFields`. -/
def heq : HailType → HailType → Bool
  | .tvoid, b => match b with | .tvoid => true | _ => false
  | .tint32, b => match b with | .tint32 => true | _ => false
  | .tint64, b => match b with | .tint64 => true | _ => false
  | .tfloat32, b => match b with | .tfloat32 => true | _ => false
  | .tfloat64, b => match b with | .tfloat64 => true | _ => false
  | .tstr, b => match b with | .tstr => true | _ => false
  | .tbool, b => match b with | .tbool => true | _ => false
  | .tcall, b => match b with | .tcall => true | _ => false
  | .tarray a, b => match b with | .tarray b2 => heq a b2 | _ => false
  | .tset a, b => match b with | .tset b2 => heq a b2 | _ => false
  | .tdict k1 v1, b =>
    match b with | .tdict k2 v2 => heq k1 k2 && heq v1 v2 | _ => false
  | .tstruct fs, b => match b with | .tstruct gs => heqFields fs gs | _ => false
  | .tunion fs, b => match b with | .tunion gs => heqFields fs gs | _ => false
  | .ttuple ts, b => match b with | .ttuple us => heqList ts us | _ => false
  | .tinterval a, b => match b with | .tinterval b2 => heq a b2 | _ => false
  | .tlocus r1, b => match b with | .tlocus r2 => r1 == r2 | _ => false
  | .tndarray a _, b => match b with | .tndarray b2 _ => heq a b2 | _ => false
  | .tvariable _ _, _ => false

/-- Field-sequence comparison: same names in the same order and
pointwise-equal field types (also checks equal length). -/
def heqFields : List (String × HailType) → List (String × HailType) → Bool
  | [], [] => true
  | (f, t) :: fs, (g, u) :: gs => f == g && heq t u && heqFields fs gs
  | _, _ => false

/-- Pointwise comparison of tuple element types (`ttuple._eq`): equal
length and `map(eq, ...)` across the two sequences. -/
def heqList : List HailType → List HailType → Bool
  | [], [] => true
  | t :: ts, u :: us => heq t u && heqList ts us
  | _, _ => false

end

/-- The `is_numeric` predicate: membership of the value's class in
`_numeric_types = {_tbool, _tint32, _tint64, _tfloat32, _tfloat64}` (note
that the source includes `_tbool`). -/
def is_numeric : HailType → Bool
  | .tbool | .tint32 | .tint64 | .tfloat32 | .tfloat64 => true
  | _ => false

/-- The optional constraint predicate of a type variable
(`tvariable._cond_map`); `none` means no constraint, which always passes. -/
def condCheck : Option CondTag → HailType → Bool
  | none, _ => true
  | some .numeric, t => is_numeric t
  | some .int32, t => heq t .tint32
  | some .int64, t => heq t .tint64
  | some .float32, t => heq t .tfloat32
  | some .float64, t => heq t .tfloat64
  | some .locus, t => match t with | .tlocus _ => true | _ => false
  | some .struct, t => match t with | .tstruct _ => true | _ => false
  | some .union, t => match t with | .tunion _ => true | _ => false
  | some .tuple, t => match t with | .ttuple _ => true | _ => false

/-- The process-wide `Box.named_boxes` registry, flattened to one
name-to-bound-value map: a name is present exactly when its box has a
`value` attribute. -/
abbrev BoxState := List (String × HailType)

/-- Registry lookup: the bound value of name `n`'s box, if bound. -/
def lookupBox : BoxState → String → Option HailType
  | [], _ => none
  | (m, v) :: rest, n => if m = n then some v else lookupBox rest n

/-- `Box.unify`: if the box named `n` is bound, succeed exactly when the
bound value `==` the candidate (state unchanged); otherwise bind the
candidate and succeed. -/
def boxUnify (s : BoxState) (n : String) (v : HailType) : Bool × BoxState :=
  match lookupBox s n with
  | some bound => (heq bound v, s)
  | none => (true, (n, v) :: s)

/-- `Box.clear`: delete the binding of name `n`'s box, if any. -/
def boxClear (s : BoxState) (n : String) : BoxState :=
  s.filter (fun p => !(p.1 == n))

/-- `tvariable.unify`: reject when a constraint is present and the candidate
fails it, otherwise defer to the shared box keyed by the variable's name. -/
def tvariableUnify (cond : Option CondTag) (n : String) (t : HailType)
    (s : BoxState) : Bool × BoxState :=
  if condCheck cond t then boxUnify s n t else (false, s)

/-- `tvariable.clear`: clear the shared box keyed by the variable's name. -/
def tvariableClear (n : String) (s : BoxState) : BoxState := boxClear s n

/-- Name-keyed field lookup, as `tstruct.__getitem__` does for a string
key. -/
def lookupField : List (String × HailType) → String → Option HailType
  | [], _ => none
  | (f, t) :: fs, n => if f = n then some t else lookupField fs n

/-! ## Host values and JSON values

The JSON codec's `_convert_to_json` / `_convert_from_json` methods operate
on Python objects before `json.dumps` / after `json.loads`.  `Value` models
the host values (Python scalars, containers, `Struct`, `Locus`, `Interval`,
`Call`, numpy arrays); `JValue` models the JSON-able Python objects the
converters exchange.  Python floats are symbolic: a finite value is carried
as a rational, the non-finite values are `nan`, `inf` and `ninf`. -/

/-- A Python float, split by `math.isfinite`. -/
inductive PyFloat where
  | finite (q : ℚ)
  | nan
  | inf
  | ninf
deriving DecidableEq, Repr

/-- `math.isfinite`. -/
def mathIsFinite : PyFloat → Bool
  | .finite _ => true
  | _ => false

/-- Python `str()` of a non-finite float: `'nan'`, `'inf'`, `'-inf'`.
The source only applies `str` to a float on the non-finite branch of
`_convert_to_json`, so the finite case is never consulted. -/
def pyStrNonFinite : PyFloat → String
  | .nan => "nan"
  | .inf => "inf"
  | .ninf => "-inf"
  | .finite _ => ""

/-- Python `float(s)` on a string: strips whitespace, takes an optional
sign, and accepts `nan` / `inf` / `infinity` case-insensitively.  Numeric
literals are not modelled (`none` stands for `ValueError` as well); the
codec only produces strings for non-finite floats, so only the three
spellings above are ever decoded. -/
def pyFloatOfString (s : String) : Option PyFloat :=
  let cs := ((s.data.dropWhile Char.isWhitespace).reverse.dropWhile
    Char.isWhitespace).reverse
  let low := cs.map Char.toLower
  let core := match low with
    | '-' :: r => (true, r)
    | '+' :: r => (false, r)
    | r => (false, r)
  if core.2 = "nan".data then some .nan
  else if core.2 = "inf".data ∨ core.2 = "infinity".data then
    some (if core.1 then .ninf else .inf)
  else none

/-- Host values crossing the codec and the conformance checker. -/
inductive Value where
  | null
  | int (n : Int)
  | float (f : PyFloat)
  | str (s : String)
  | bool (b : Bool)
  | list (elements : List Value)
  | tuple (elements : List Value)
  | set (elements : List Value)
  | dict (entries : List (Value × Value))
  | struct (fields : List (String × Value))
  | interval (point_type : HailType) (start stop : Value)
      (includes_start includes_stop : Bool)
  | locus (reference_genome contig : String) (position : Int)
  | call (s : String)
  | ndarrayV (shape strides : List Int) (data : List Value)
deriving Repr

/-- JSON-able Python objects (what `json.dumps` accepts / `json.loads`
yields): `None`, int, float, str, bool, list, and dict with string keys. -/
inductive JValue where
  | jnull
  | jint (n : Int)
  | jfloat (f : PyFloat)
  | jstr (s : String)
  | jbool (b : Bool)
  | jarr (elements : List JValue)
  | jobj (fields : List (String × JValue))
deriving Repr

/-- Lookup in a JSON object (`x['key']` / `x.get(key)`). -/
def lookupJ : List (String × JValue) → String → Option JValue
  | [], _ => none
  | (f, j) :: fs, n => if f = n then some j else lookupJ fs n

mutual

/-- The default `HailType._convert_to_json` is the identity on the Python
object; `json.dumps` then accepts it only if it is JSON-able.  `none`
models the `TypeError` `dumps` raises on sets, `Struct`s and the domain
value classes (non-string dict keys are likewise not modelled). -/
def valueToJ : Value → Option JValue
  | .null => some .jnull
  | .int n => some (.jint n)
  | .float f => some (.jfloat f)
  | .str s => some (.jstr s)
  | .bool b => some (.jbool b)
  | .list xs => (valueListToJ xs).map .jarr
  | .tuple xs => (valueListToJ xs).map .jarr
  | .dict entries => (valueDictToJ entries).map .jobj
  | _ => none

def valueListToJ : List Value → Option (List JValue)
  | [] => some []
  | x :: xs => do
    let j ← valueToJ x
    let r ← valueListToJ xs
    some (j :: r)

def valueDictToJ : List (Value × Value) → Option (List (String × JValue))
  | [] => some []
  | (.str k, w) :: rest => do
    let j ← valueToJ w
    let r ← valueDictToJ rest
    some ((k, j) :: r)
  | _ => none

end

mutual

/-- The reverse identity: `json.loads` output embedded into `Value`
(objects become dicts with string keys). -/
def jToValue : JValue → Value
  | .jnull => .null
  | .jint n => .int n
  | .jfloat f => .float f
  | .jstr s => .str s
  | .jbool b => .bool b
  | .jarr xs => .list (jListToValue xs)
  | .jobj fs => .dict (jObjToValue fs)

def jListToValue : List JValue → List Value
  | [] => []
  | j :: js => jToValue j :: jListToValue js

def jObjToValue : List (String × JValue) → List (Value × Value)
  | [] => []
  | (k, j) :: fs => (.str k, jToValue j) :: jObjToValue fs

end

/-- `_tfloat32._convert_to_json` / `_tfloat64._convert_to_json`: the value
itself when `math.isfinite(x)`, else `str(x)`.  Python ints and bools pass
`isfinite` and are returned unchanged; other objects raise `TypeError`. -/
def floatToJson : Value → Option JValue
  | .float f => if mathIsFinite f then some (.jfloat f) else some (.jstr (pyStrNonFinite f))
  | .int n => some (.jint n)
  | .bool b => some (.jbool b)
  | _ => none

/-- `_tfloat32._convert_from_json` / `_tfloat64._convert_from_json`:
`float(x)`. -/
def floatFromJson : JValue → Option Value
  | .jfloat f => some (.float f)
  | .jint n => some (.float (.finite n))
  | .jbool b => some (.float (.finite (if b then 1 else 0)))
  | .jstr s => (pyFloatOfString s).map .float
  | _ => none

/-- Size positivity, used for the codec's termination measure. -/
theorem HailType.sizeOf_pos (t : HailType) : 0 < sizeOf t := by
  cases t <;> simp_arith

/-- Mapping access on a host value (`x[f]` for a `Struct` or a dict with
string keys); `none` is the `KeyError`/`TypeError` for anything else. -/
def structGet : Value → String → Option Value
  | .struct fs, n => goStruct fs n
  | .dict es, n => goDict es n
  | _, _ => none
where
  goStruct : List (String × Value) → String → Option Value
    | [], _ => none
    | (f, w) :: fs, n => if f = n then some w else goStruct fs n
  goDict : List (Value × Value) → String → Option Value
    | [], _ => none
    | (.str f, w) :: es, n => if f = n then some w else goDict es n
    | _ :: es, n => goDict es n

mutual

/-- Type-directed JSON encoding, `HailType._convert_to_json` per variant:
the identity for int/str/bool/void (and for `tunion`/`tvariable`, which
define no converter), finite/non-finite dispatch for floats, element-wise
arrays for `tarray`/`tset`, an array of `{key, value}` objects for `tdict`
(note: the entries are converted with the plain `_convert_to_json`, not the
`_na` wrapper), a field-keyed object for `tstruct`, a positional array for
`ttuple`, `{start, end, includeStart, includeEnd}` for `tinterval`,
`{contig, position}` for `tlocus`, a string for `tcall` and the
shape/strides/flags/data/offset object for `tndarray` (whose flattened
`data` is taken raw from `tolist()`, with no element conversion). -/
def convertToJson : HailType → Value → Option JValue
  | .tvoid, v => valueToJ v
  | .tint32, v => valueToJ v
  | .tint64, v => valueToJ v
  | .tfloat32, v => floatToJson v
  | .tfloat64, v => floatToJson v
  | .tstr, v => valueToJ v
  | .tbool, v => valueToJ v
  | .tcall, v => match v with | .call s => some (.jstr s) | _ => none
  | .tarray e, v =>
    match v with
    | .list xs => (elemsToJson e xs).map .jarr
    | .tuple xs => (elemsToJson e xs).map .jarr
    | .set xs => (elemsToJson e xs).map .jarr
    | _ => none
  | .tset e, v =>
    match v with
    | .list xs => (elemsToJson e xs).map .jarr
    | .tuple xs => (elemsToJson e xs).map .jarr
    | .set xs => (elemsToJson e xs).map .jarr
    | _ => none
  | .tdict kt vt, v =>
    match v with
    | .dict entries => (dictEntriesToJson kt vt entries).map .jarr
    | _ => none
  | .tstruct fs, v => (structFieldsToJson fs v).map .jobj
  | .tunion _, v => valueToJ v
  | .ttuple ts, v =>
    match v with
    | .tuple xs => (tupleToJson ts xs).map .jarr
    | .list xs => (tupleToJson ts xs).map .jarr
    | _ => none
  | .tinterval p, v =>
    match v with
    | .interval _ s e is ie => do
      let js ← convertToJsonNa p s
      let je ← convertToJsonNa p e
      some (.jobj [("start", js), ("end", je),
                   ("includeStart", .jbool is), ("includeEnd", .jbool ie)])
    | _ => none
  | .tlocus _, v =>
    match v with
    | .locus _ contig pos =>
      some (.jobj [("contig", .jstr contig), ("position", .jint pos)])
    | _ => none
  | .tndarray _ _, v =>
    match v with
    | .ndarrayV shape strides data => do
      let jd ← valueListToJ data
      some (.jobj [("shape", .jarr (shape.map .jint)),
                   ("strides", .jarr (strides.map .jint)),
                   ("flags", .jint 0), ("data", .jarr jd), ("offset", .jint 0)])
    | _ => none
  | .tvariable _ _, v => valueToJ v
termination_by t _ => (sizeOf t, 0, 0)

/-- `HailType._convert_to_json_na`: `None` passes through untouched,
everything else goes to the variant's converter. -/
def convertToJsonNa (t : HailType) (v : Value) : Option JValue :=
  match v with
  | .null => some .jnull
  | _ => convertToJson t v
termination_by (sizeOf t, 0, 1)

/-- Element-wise encoding for `tarray`/`tset` (each element through the
`_na` wrapper). -/
def elemsToJson (e : HailType) : List Value → Option (List JValue)
  | [] => some []
  | x :: xs => do
    let j ← convertToJsonNa e x
    let r ← elemsToJson e xs
    some (j :: r)
termination_by xs => (sizeOf e, xs.length, 1)

/-- `tdict._convert_to_json`: one `{"key": ..., "value": ...}` object per
entry in iteration order, converting with the plain converters. -/
def dictEntriesToJson (kt vt : HailType) : List (Value × Value) → Option (List JValue)
  | [] => some []
  | (a, b) :: rest => do
    let jk ← convertToJson kt a
    let jv ← convertToJson vt b
    let r ← dictEntriesToJson kt vt rest
    some (.jobj [("key", jk), ("value", jv)] :: r)
termination_by l => (sizeOf kt + sizeOf vt, l.length, 1)
decreasing_by
  all_goals
    first
    | decreasing_tactic
    | (apply Prod.Lex.left
       have hk := HailType.sizeOf_pos kt
       have hv := HailType.sizeOf_pos vt
       omega)

/-- `tstruct._convert_to_json`: `{f: t._convert_to_json_na(x[f])}` over the
declared fields in order. -/
def structFieldsToJson : List (String × HailType) → Value → Option (List (String × JValue))
  | [], _ => some []
  | (f, ft) :: fs, v => do
    let w ← structGet v f
    let j ← convertToJsonNa ft w
    let r ← structFieldsToJson fs v
    some ((f, j) :: r)
termination_by fs _ => (sizeOf fs, 0, 1)

/-- `ttuple._convert_to_json`: `x[i]` for each declared position (an
`IndexError`, i.e. `none`, when the value is shorter; extra elements are
ignored). -/
def tupleToJson : List HailType → List Value → Option (List JValue)
  | [], _ => some []
  | t :: ts, x :: xs => do
    let j ← convertToJsonNa t x
    let r ← tupleToJson ts xs
    some (j :: r)
  | _ :: _, [] => none
termination_by ts _ => (sizeOf ts, 0, 1)

end

/-- A JSON array of integers, as found under `shape`/`strides`. -/
def intList : List JValue → Option (List Int)
  | [] => some []
  | .jint n :: js => (intList js).map (n :: ·)
  | _ => none

mutual

/-- Type-directed JSON decoding, `HailType._convert_from_json` per variant:
the structural inverse of `convertToJson`, using the same Type Node to
interpret nested elements.  The default (int/str/bool/void/`tunion`/
`tvariable`) is the identity on the loaded JSON object. -/
def convertFromJson : HailType → JValue → Option Value
  | .tvoid, j => some (jToValue j)
  | .tint32, j => some (jToValue j)
  | .tint64, j => some (jToValue j)
  | .tfloat32, j => floatFromJson j
  | .tfloat64, j => floatFromJson j
  | .tstr, j => some (jToValue j)
  | .tbool, j => some (jToValue j)
  | .tcall, j =>
    match j with
    | .jstr s => some (.call s)
    | _ => none
  | .tarray e, j =>
    match j with
    | .jarr xs => (elemsFromJson e xs).map .list
    | _ => none
  | .tset e, j =>
    match j with
    | .jarr xs => (elemsFromJson e xs).map .set
    | _ => none
  | .tdict kt vt, j =>
    match j with
    | .jarr xs => (dictEntriesFromJson kt vt xs).map .dict
    | _ => none
  | .tstruct fs, j =>
    match j with
    | .jobj obj => (structFieldsFromJson fs obj).map .struct
    | _ => none
  | .tunion _, j => some (jToValue j)
  | .ttuple ts, j =>
    match j with
    | .jarr xs => (tupleFromJson ts xs).map .tuple
    | _ => none
  | .tinterval p, j =>
    match j with
    | .jobj obj => do
      let js ← lookupJ obj "start"
      let s ← convertFromJsonNa p js
      let je ← lookupJ obj "end"
      let e ← convertFromJsonNa p je
      let jis ← lookupJ obj "includeStart"
      let jie ← lookupJ obj "includeEnd"
      match jis, jie with
      | .jbool is, .jbool ie => some (.interval p s e is ie)
      | _, _ => none
    | _ => none
  | .tlocus rg, j =>
    match j with
    | .jobj obj => do
      let c ← lookupJ obj "contig"
      let p ← lookupJ obj "position"
      match c, p with
      | .jstr cs, .jint pn => some (.locus rg cs pn)
      | _, _ => none
    | _ => none
  | .tndarray _ _, j =>
    match j with
    | .jobj obj => do
      let jsh ← lookupJ obj "shape"
      let jd ← lookupJ obj "data"
      let jst ← lookupJ obj "strides"
      match jsh, jd, jst with
      | .jarr sh, .jarr d, .jarr st => do
        let shn ← intList sh
        let stn ← intList st
        some (.ndarrayV shn stn (jListToValue d))
      | _, _, _ => none
    | _ => none
  | .tvariable _ _, j => some (jToValue j)
termination_by t _ => (sizeOf t, 0, 0)

/-- `HailType._convert_from_json_na`: `None` (JSON null) passes through
untouched, everything else goes to the variant's converter. -/
def convertFromJsonNa (t : HailType) (j : JValue) : Option Value :=
  match j with
  | .jnull => some .null
  | _ => convertFromJson t j
termination_by (sizeOf t, 0, 1)

def elemsFromJson (e : HailType) : List JValue → Option (List Value)
  | [] => some []
  | j :: js => do
    let x ← convertFromJsonNa e j
    let r ← elemsFromJson e js
    some (x :: r)
termination_by js => (sizeOf e, js.length, 1)

/-- `tdict._convert_from_json`: `elt['key']` / `elt['value']` of each array
element through the `_na` converters (`none` when an element is not an
object or a key is missing). -/
def dictEntriesFromJson (kt vt : HailType) : List JValue → Option (List (Value × Value))
  | [] => some []
  | j :: rest =>
    match j with
    | .jobj obj => do
      let jk ← lookupJ obj "key"
      let a ← convertFromJsonNa kt jk
      let jv ← lookupJ obj "value"
      let b ← convertFromJsonNa vt jv
      let r ← dictEntriesFromJson kt vt rest
      some ((a, b) :: r)
    | _ => none
termination_by l => (sizeOf kt + sizeOf vt, l.length, 1)
decreasing_by
  all_goals
    first
    | decreasing_tactic
    | (apply Prod.Lex.left
       have hk := HailType.sizeOf_pos kt
       have hv := HailType.sizeOf_pos vt
       omega)

/-- `tstruct._convert_from_json`: `x.get(f)` per declared field (a missing
key yields `None`, which the `_na` converter passes through). -/
def structFieldsFromJson : List (String × HailType) → List (String × JValue) →
    Option (List (String × Value))
  | [], _ => some []
  | (f, ft) :: fs, obj => do
    let w ← convertFromJsonNa ft ((lookupJ obj f).getD .jnull)
    let r ← structFieldsFromJson fs obj
    some ((f, w) :: r)
termination_by fs _ => (sizeOf fs, 0, 1)

/-- `ttuple._convert_from_json`: `x[i]` for each declared position. -/
def tupleFromJson : List HailType → List JValue → Option (List Value)
  | [], _ => some []
  | t :: ts, j :: js => do
    let x ← convertFromJsonNa t j
    let r ← tupleFromJson ts js
    some (x :: r)
  | _ :: _, [] => none
termination_by ts _ => (sizeOf ts, 0, 1)

end

/-! ## Python runtime errors, unification over Type Nodes, conformance -/

/-- Python exceptions the embedded code can raise (`outOfFuel` is the
embedding's marker for exhausted recursion fuel; it is unreachable for the
inputs considered). -/
inductive PyErr where
  | typeError
  | attributeError
  | nameError (missing : String)
  | keyError
  | outOfFuel
deriving DecidableEq, Repr

mutual

/-- `HailType.unify` per variant, with the `Box` registry threaded as
state and Python exceptions as `Except`.  Primitives unify by `==` against
their singleton; containers require the same variant and recursively unify
children (`and` short-circuits, so bindings made before a failure persist);
structs check `len` then walk the two field sequences positionally;
`tndarray` also unifies the rank literal (`NatLiteral.unify`, equality);
`tvariable` defers to its constraint and shared box.  `tunion.unify`
evaluates `isinstance(t, union)` — and `union` is an undefined name in
types.py (the class is `tunion`), so the call raises `NameError` before
anything else. -/
def unify : HailType → HailType → BoxState → Except PyErr (Bool × BoxState)
  | .tvoid, t, s => .ok (heq t .tvoid, s)
  | .tint32, t, s => .ok (heq t .tint32, s)
  | .tint64, t, s => .ok (heq t .tint64, s)
  | .tfloat32, t, s => .ok (heq t .tfloat32, s)
  | .tfloat64, t, s => .ok (heq t .tfloat64, s)
  | .tstr, t, s => .ok (heq t .tstr, s)
  | .tbool, t, s => .ok (heq t .tbool, s)
  | .tcall, t, s => .ok (heq t .tcall, s)
  | .tarray e, t, s =>
    match t with
    | .tarray e2 => unify e e2 s
    | _ => .ok (false, s)
  | .tset e, t, s =>
    match t with
    | .tset e2 => unify e e2 s
    | _ => .ok (false, s)
  | .tdict kt vt, t, s =>
    match t with
    | .tdict kt2 vt2 => do
      let r ← unify kt kt2 s
      if r.1 then unify vt vt2 r.2 else .ok (false, r.2)
    | _ => .ok (false, s)
  | .tstruct fs, t, s =>
    match t with
    | .tstruct gs =>
      if fs.length = gs.length then unifyFields fs gs s else .ok (false, s)
    | _ => .ok (false, s)
  | .tunion _, _, _ => .error (.nameError "union")
  | .ttuple ts, t, s =>
    match t with
    | .ttuple us =>
      if ts.length = us.length then unifyList ts us s else .ok (false, s)
    | _ => .ok (false, s)
  | .tinterval p, t, s =>
    match t with
    | .tinterval p2 => unify p p2 s
    | _ => .ok (false, s)
  | .tlocus rg, t, s =>
    .ok (match t with | .tlocus rg2 => rg == rg2 | _ => false, s)
  | .tndarray e nd, t, s =>
    match t with
    | .tndarray e2 nd2 => do
      let r ← unify e e2 s
      if r.1 then .ok (nd == nd2, r.2) else .ok (false, r.2)
    | _ => .ok (false, s)
  | .tvariable nm c, t, s => .ok (tvariableUnify c nm t s)
termination_by t _ _ => (sizeOf t, 0)

/-- `tstruct.unify`'s loop: pairs in declaration order; a name mismatch
returns `False` without unifying the pair's types; a failed child
unification returns `False` keeping any bindings already made. -/
def unifyFields : List (String × HailType) → List (String × HailType) →
    BoxState → Except PyErr (Bool × BoxState)
  | [], _, s => .ok (true, s)
  | _ :: _, [], s => .ok (true, s)
  | (f1, t1) :: fs, (f2, t2) :: gs, s =>
    if f1 = f2 then do
      let r ← unify t1 t2 s
      if r.1 then unifyFields fs gs r.2 else .ok (false, r.2)
    else .ok (false, s)
termination_by fs _ _ => (sizeOf fs, 1)

/-- `ttuple.unify`'s loop over element types. -/
def unifyList : List HailType → List HailType → BoxState →
    Except PyErr (Bool × BoxState)
  | [], _, s => .ok (true, s)
  | _ :: _, [], s => .ok (true, s)
  | t :: ts, u :: us, s => do
    let r ← unify t u s
    if r.1 then unifyList ts us r.2 else .ok (false, r.2)
termination_by ts _ _ => (sizeOf ts, 1)

end

/-- Python truthiness of a host value (`if annotation:`): `None`, zero,
the empty string and empty containers are falsy. -/
def pythonTruthy : Value → Bool
  | .null => false
  | .int n => n != 0
  | .float f => match f with | .finite q => q != 0 | _ => true
  | .str s => s != ""
  | .bool b => b
  | .list xs => !xs.isEmpty
  | .tuple xs => !xs.isEmpty
  | .set xs => !xs.isEmpty
  | .dict es => !es.isEmpty
  | .struct fs => !fs.isEmpty
  | .interval _ _ _ _ _ => true
  | .locus _ _ _ => true
  | .call _ => true
  | .ndarrayV _ _ _ => true

/-- `HailType._typecheck_one_level` per variant.  The int/float/bool/call/
locus/interval/array/set/dict/ndarray checks are guarded on
`annotation is not None`; the str, struct and tuple checks are guarded on
the value's truthiness (`if annotation:`/`if annotation and ...`), so every
falsy value skips them.  `_tvoid`, `tunion` and `tvariable` define no
check (the abstract method's body is `pass`). -/
def typecheckOneLevel : HailType → Value → Except PyErr Unit
  | .tvoid, _ => .ok ()
  | .tint32, v =>
    match v with
    | .null => .ok ()
    | .bool _ => .ok ()
    | .int n => if -(2 ^ 31) ≤ n ∧ n ≤ 2 ^ 31 - 1 then .ok () else .error .typeError
    | _ => .error .typeError
  | .tint64, v =>
    match v with
    | .null => .ok ()
    | .bool _ => .ok ()
    | .int n => if -(2 ^ 63) ≤ n ∧ n ≤ 2 ^ 63 - 1 then .ok () else .error .typeError
    | _ => .error .typeError
  | .tfloat32, v =>
    match v with
    | .null | .float _ | .int _ | .bool _ => .ok ()
    | _ => .error .typeError
  | .tfloat64, v =>
    match v with
    | .null | .float _ | .int _ | .bool _ => .ok ()
    | _ => .error .typeError
  | .tstr, v =>
    if pythonTruthy v then
      match v with
      | .str _ => .ok ()
      | _ => .error .typeError
    else .ok ()
  | .tbool, v =>
    match v with
    | .null | .bool _ => .ok ()
    | _ => .error .typeError
  | .tcall, v =>
    match v with
    | .null | .call _ => .ok ()
    | _ => .error .typeError
  | .tarray _, v =>
    match v with
    | .null | .list _ | .tuple _ | .str _ => .ok ()
    | _ => .error .typeError
  | .tset _, v =>
    match v with
    | .null | .set _ => .ok ()
    | _ => .error .typeError
  | .tdict _ _, v =>
    match v with
    | .null | .dict _ => .ok ()
    | _ => .error .typeError
  | .tstruct fields, v =>
    if pythonTruthy v then
      match v with
      | .struct vfs =>
        if vfs.all (fun p => (lookupField fields p.1).isSome) then .ok ()
        else .error .typeError
      | .dict es =>
        if es.all (fun p =>
            match p.1 with
            | .str k => (lookupField fields k).isSome
            | _ => false) then .ok ()
        else .error .typeError
      | _ => .error .typeError
    else .ok ()
  | .tunion _, _ => .ok ()
  | .ttuple ts, v =>
    if pythonTruthy v then
      match v with
      | .tuple xs => if xs.length = ts.length then .ok () else .error .typeError
      | _ => .error .typeError
    else .ok ()
  | .tinterval p, v =>
    match v with
    | .null => .ok ()
    | .interval pt _ _ _ _ => if heq pt p then .ok () else .error .typeError
    | _ => .error .typeError
  | .tlocus rg, v =>
    match v with
    | .null => .ok ()
    | .locus rg2 _ _ => if rg = rg2 then .ok () else .error .typeError
    | _ => .error .typeError
  | .tndarray _ _, v =>
    match v with
    | .null | .ndarrayV _ _ _ => .ok ()
    | _ => .error .typeError
  | .tvariable _ _, _ => .ok ()

/-- Python iteration (`for elt in obj` / `zip(..., obj)`): lists, tuples
and sets yield their elements, strings their characters, dicts their keys,
`Struct`s their field names, numpy arrays their scalars; everything else
raises `TypeError` (not iterable). -/
def pyIter : Value → Except PyErr (List Value)
  | .list xs => .ok xs
  | .tuple xs => .ok xs
  | .set xs => .ok xs
  | .str s => .ok (s.data.map (fun c => .str c.toString))
  | .dict es => .ok (es.map Prod.fst)
  | .struct fs => .ok (fs.map (fun p => .str p.1))
  | .ndarrayV _ _ data => .ok data
  | _ => .error .typeError

/-- Python `obj.items()`: dicts and `Struct`s have it; anything else
raises `AttributeError`. -/
def pyItems : Value → Except PyErr (List (Value × Value))
  | .dict es => .ok es
  | .struct fs => .ok (fs.map (fun p => (.str p.1, p.2)))
  | _ => .error .attributeError

/-- `HailType._traverse(value, check)` as driven by `typecheck`: the
one-level check runs on the node and, since `check` always returns `True`,
traversal then recurses into children (array/set elements, dict keys and
values, struct items with a name-keyed field-type lookup, tuple positions
zipped with the value, interval endpoints, ndarray scalars).  A fuel
argument bounds the recursion depth (one unit per type level); `traverse`
always descends the type, so `tyDepth` below is enough fuel. -/
def traverse : Nat → HailType → Value → Except PyErr Unit
  | 0, _, _ => .error .outOfFuel
  | fuel + 1, t, v => do
    typecheckOneLevel t v
    match t with
    | .tarray e => do
      let xs ← pyIter v
      xs.forM (fun x => traverse fuel e x)
    | .tset e => do
      let xs ← pyIter v
      xs.forM (fun x => traverse fuel e x)
    | .tdict kt vt => do
      let es ← pyItems v
      es.forM (fun p => do
        traverse fuel kt p.1
        traverse fuel vt p.2)
    | .tstruct fields => do
      let es ← pyItems v
      es.forM (fun p =>
        match p.1 with
        | .str name =>
          match lookupField fields name with
          | some ft => traverse fuel ft p.2
          | none => .error .keyError
        | _ => .error .typeError)
    | .ttuple ts => do
      let xs ← pyIter v
      (ts.zip xs).forM (fun p => traverse fuel p.1 p.2)
    | .tinterval p =>
      match v with
      | .interval _ a b _ _ => do
        traverse fuel p a
        traverse fuel p b
      | _ => .error .attributeError
    | .tndarray e _ =>
      match v with
      | .ndarrayV _ _ data => data.forM (fun x => traverse fuel e x)
      | _ => .ok ()
    | _ => .ok ()

mutual

/-- Depth of a Type Node; `traverse` descends the type at every recursive
step, so this bounds the recursion depth and serves as fuel. -/
def tyDepth : HailType → Nat
  | .tarray e => tyDepth e + 1
  | .tset e => tyDepth e + 1
  | .tdict k v => max (tyDepth k) (tyDepth v) + 1
  | .tstruct fs => tyDepthFields fs + 1
  | .tunion fs => tyDepthFields fs + 1
  | .ttuple ts => tyDepthList ts + 1
  | .tinterval p => tyDepth p + 1
  | .tndarray e _ => tyDepth e + 1
  | _ => 1

def tyDepthFields : List (String × HailType) → Nat
  | [] => 0
  | (_, t) :: fs => max (tyDepth t) (tyDepthFields fs)

def tyDepthList : List HailType → Nat
  | [] => 0
  | t :: ts => max (tyDepth t) (tyDepthList ts)

end

/-- `HailType.typecheck(value)`: the typed traversal with the one-level
check at every node. -/
def typecheck (t : HailType) (v : Value) : Except PyErr Unit :=
  traverse (tyDepth t) t v

/-! ## Display printer and the grammar parser

`__str__` per variant gives the display form.  The grammar itself lives in
`hail/expr/type_parsing.py`, which is not under src/, so the parser here is
modelled from the spec (its section 4.1 grammar, reproduced in the `dtype`
docstring): PEG ordered choice, optional whitespace around types and
identifiers, `t`-prefixed alias spellings of every keyword, backtick-escaped
identifiers — and, in particular, `locus := "locus" _ "[" identifier "]"`
with square brackets. -/

/-- Reserved characters of the identifier syntax (spec section 4.1): comma,
colon, angle/curly/round brackets, backtick, backslash, whitespace. -/
def reservedChar (c : Char) : Bool :=
  c == ',' || c == ':' || c == '<' || c == '>' || c == '{' || c == '}' ||
  c == '(' || c == ')' || c == '`' || c == '\\' || c.isWhitespace

/-- Backslash-escape embedded backticks and backslashes. -/
def escapeChars : List Char → List Char
  | [] => []
  | c :: cs =>
    if c == '`' || c == '\\' then '\\' :: c :: escapeChars cs
    else c :: escapeChars cs

/-- Modelled from the spec: `escape_parsable` (hail/utils/java.py is not
under src/).  An identifier containing a reserved character is wrapped in
backticks with embedded backticks/backslashes backslash-escaped; a plain
identifier prints as itself. -/
def escapeParsable (s : String) : String :=
  if s.data.any reservedChar then
    String.mk ('`' :: (escapeChars s.data ++ ['`']))
  else s

/-- The spelling of a constraint tag in `tvariable.__str__`. -/
def condName : CondTag → String
  | .numeric => "numeric"
  | .int32 => "int32"
  | .int64 => "int64"
  | .float32 => "float32"
  | .float64 => "float64"
  | .locus => "locus"
  | .struct => "struct"
  | .union => "union"
  | .tuple => "tuple"

mutual

/-- The display form, `HailType.__str__` per variant.  Of note:
`tlocus.__str__` prints `locus<RG>` with angle brackets. -/
def displayStr : HailType → String
  | .tvoid => "void"
  | .tint32 => "int32"
  | .tint64 => "int64"
  | .tfloat32 => "float32"
  | .tfloat64 => "float64"
  | .tstr => "str"
  | .tbool => "bool"
  | .tcall => "call"
  | .tarray e => "array<" ++ displayStr e ++ ">"
  | .tset e => "set<" ++ displayStr e ++ ">"
  | .tdict k v => "dict<" ++ displayStr k ++ ", " ++ displayStr v ++ ">"
  | .tstruct fs => "struct\x7b" ++ displayFields fs ++ "\x7d"
  | .tunion fs => "union\x7b" ++ displayFields fs ++ "\x7d"
  | .ttuple ts => "tuple(" ++ displayList ts ++ ")"
  | .tinterval p => "interval<" ++ displayStr p ++ ">"
  | .tlocus rg => "locus<" ++ escapeParsable rg ++ ">"
  | .tndarray e nd => "ndarray<" ++ displayStr e ++ ", " ++ toString nd ++ ">"
  | .tvariable nm c =>
    "?" ++ nm ++ (match c with | some tag => ":" ++ condName tag | none => "")

/-- `', '.join('f: t')` over struct/union fields, names escaped. -/
def displayFields : List (String × HailType) → String
  | [] => ""
  | [(f, t)] => escapeParsable f ++ ": " ++ displayStr t
  | (f, t) :: rest =>
    escapeParsable f ++ ": " ++ displayStr t ++ ", " ++ displayFields rest

/-- `', '.join(str(t))` over tuple element types. -/
def displayList : List HailType → String
  | [] => ""
  | [t] => displayStr t
  | t :: rest => displayStr t ++ ", " ++ displayList rest

end

/-- A word character of `simple_identifier` (regex `\\w`). -/
def isWordChar (c : Char) : Bool := c.isAlphanum || c == '_'

/-- Optional whitespace (`_` of the grammar). -/
def skipWs (cs : List Char) : List Char := cs.dropWhile Char.isWhitespace

/-- Match a literal keyword, returning the rest of the input. -/
def matchLit : List Char → List Char → Option (List Char)
  | [], cs => some cs
  | k :: ks, c :: cs => if k = c then matchLit ks cs else none
  | _ :: _, [] => none

/-- A keyword or its `t`-prefixed alias spelling. -/
def kwAlias (w : String) (cs : List Char) : Option (List Char) :=
  match matchLit w.data cs with
  | some rest => some rest
  | none => matchLit ('t' :: w.data) cs

/-- One expected character. -/
def expectChar (c : Char) : List Char → Option (List Char)
  | d :: rest => if d = c then some rest else none
  | [] => none

/-- The body of an escaped identifier after its opening backtick:
characters up to the closing backtick, un-escaping backslash pairs. -/
def escIdentAux : List Char → Option (List Char × List Char)
  | [] => none
  | '`' :: rest => some ([], rest)
  | '\\' :: c :: rest => (escIdentAux rest).map (fun p => (c :: p.1, p.2))
  | ['\\'] => none
  | c :: rest => (escIdentAux rest).map (fun p => (c :: p.1, p.2))

/-- `identifier := _ (simple_identifier | escaped_identifier) _`. -/
def parseIdent (cs0 : List Char) : Option (String × List Char) :=
  let cs := skipWs cs0
  match cs with
  | '`' :: rest =>
    match escIdentAux rest with
    | some (content, r) => some (String.mk content, skipWs r)
    | none => none
  | _ =>
    let w := cs.takeWhile isWordChar
    if w.isEmpty then none
    else some (String.mk w, skipWs (cs.dropWhile isWordChar))

/-- A rank literal: a digit-only identifier read as a natural number (a
non-numeric identifier would be an unresolved rank variable, outside this
model). -/
def natOfDigits (s : String) : Option Nat :=
  if s.data ≠ [] ∧ s.data.all Char.isDigit then
    some (s.data.foldl (fun acc c => acc * 10 + (c.toNat - 48)) 0)
  else none

/-- `locus := "locus" _ "[" identifier "]"` — square brackets, per the
published grammar. -/
def parseLocusT (cs : List Char) : Option (HailType × List Char) := do
  let r1 ← kwAlias "locus" cs
  let r2 ← expectChar '[' (skipWs r1)
  let (idn, r3) ← parseIdent r2
  let r4 ← expectChar ']' r3
  pure (HailType.tlocus idn, r4)

mutual

/-- `type := _ ( array | set | dict | ndarray | struct | union | tuple |
interval | locus | int64 | int32 | float32 | float64 | bool | str | call )
_`, ordered PEG choice. -/
def parseType : Nat → List Char → Option (HailType × List Char)
  | 0, _ => none
  | fuel + 1, cs0 =>
    let cs := skipWs cs0
    let r :=
      (parseAngle fuel "array" cs).map (fun p => (HailType.tarray p.1, p.2)) <|>
      (parseAngle fuel "set" cs).map (fun p => (HailType.tset p.1, p.2)) <|>
      parseDictT fuel cs <|>
      parseNdarrayT fuel cs <|>
      parseStructT fuel cs <|>
      parseUnionT fuel cs <|>
      parseTupleT fuel cs <|>
      (parseAngle fuel "interval" cs).map
        (fun p => (HailType.tinterval p.1, p.2)) <|>
      parseLocusT cs <|>
      (kwAlias "int64" cs).map (fun r => (HailType.tint64, r)) <|>
      (kwAlias "int32" cs).map (fun r => (HailType.tint32, r)) <|>
      (kwAlias "int" cs).map (fun r => (HailType.tint32, r)) <|>
      (kwAlias "float32" cs).map (fun r => (HailType.tfloat32, r)) <|>
      (kwAlias "float64" cs).map (fun r => (HailType.tfloat64, r)) <|>
      (kwAlias "float" cs).map (fun r => (HailType.tfloat64, r)) <|>
      (kwAlias "bool" cs).map (fun r => (HailType.tbool, r)) <|>
      (kwAlias "str" cs).map (fun r => (HailType.tstr, r)) <|>
      (kwAlias "call" cs).map (fun r => (HailType.tcall, r))
    match r with
    | some (t, rest) => some (t, skipWs rest)
    | none => none

/-- `kw _ "<" type ">"`, shared by array, set and interval. -/
def parseAngle : Nat → String → List Char → Option (HailType × List Char)
  | 0, _, _ => none
  | fuel + 1, kw, cs => do
    let r1 ← kwAlias kw cs
    let r2 ← expectChar '<' (skipWs r1)
    let (t, r3) ← parseType fuel r2
    let r4 ← expectChar '>' r3
    pure (t, r4)

/-- `dict := "dict" _ "<" type "," type ">"`. -/
def parseDictT : Nat → List Char → Option (HailType × List Char)
  | 0, _ => none
  | fuel + 1, cs => do
    let r1 ← kwAlias "dict" cs
    let r2 ← expectChar '<' (skipWs r1)
    let (kt, r3) ← parseType fuel r2
    let r4 ← expectChar ',' r3
    let (vt, r5) ← parseType fuel r4
    let r6 ← expectChar '>' r5
    pure (HailType.tdict kt vt, r6)

/-- `ndarray := "ndarray" _ "<" type "," identifier ">"`. -/
def parseNdarrayT : Nat → List Char → Option (HailType × List Char)
  | 0, _ => none
  | fuel + 1, cs => do
    let r1 ← kwAlias "ndarray" cs
    let r2 ← expectChar '<' (skipWs r1)
    let (et, r3) ← parseType fuel r2
    let r4 ← expectChar ',' r3
    let (idn, r5) ← parseIdent r4
    let nd ← natOfDigits idn
    let r6 ← expectChar '>' r5
    pure (HailType.tndarray et nd, r6)

/-- `struct := "struct" _ "{" (fields | _) "}"`. -/
def parseStructT : Nat → List Char → Option (HailType × List Char)
  | 0, _ => none
  | fuel + 1, cs => do
    let r1 ← kwAlias "struct" cs
    let r2 ← expectChar '{' (skipWs r1)
    match parseFields fuel r2 with
    | some (fs, r3) => do
      let r4 ← expectChar '}' r3
      pure (HailType.tstruct fs, r4)
    | none => do
      let r4 ← expectChar '}' (skipWs r2)
      pure (HailType.tstruct [], r4)

/-- `union := "union" _ "{" (fields | _) "}"`. -/
def parseUnionT : Nat → List Char → Option (HailType × List Char)
  | 0, _ => none
  | fuel + 1, cs => do
    let r1 ← kwAlias "union" cs
    let r2 ← expectChar '{' (skipWs r1)
    match parseFields fuel r2 with
    | some (fs, r3) => do
      let r4 ← expectChar '}' r3
      pure (HailType.tunion fs, r4)
    | none => do
      let r4 ← expectChar '}' (skipWs r2)
      pure (HailType.tunion [], r4)

/-- `tuple := "tuple" _ "(" ( type ("," type)* | _ ) ")"`. -/
def parseTupleT : Nat → List Char → Option (HailType × List Char)
  | 0, _ => none
  | fuel + 1, cs => do
    let r1 ← kwAlias "tuple" cs
    let r2 ← expectChar '(' (skipWs r1)
    match parseTypeList fuel r2 with
    | some (ts, r3) => do
      let r4 ← expectChar ')' r3
      pure (HailType.ttuple ts, r4)
    | none => do
      let r4 ← expectChar ')' (skipWs r2)
      pure (HailType.ttuple [], r4)

/-- `fields := field ("," field)*`, `field := identifier ":" type`; a
star iteration that fails after a comma stops the star, leaving the comma
unconsumed (PEG semantics). -/
def parseFields : Nat → List Char → Option (List (String × HailType) × List Char)
  | 0, _ => none
  | fuel + 1, cs => do
    let (f, r1) ← parseIdent cs
    let r2 ← expectChar ':' r1
    let (t, r3) ← parseType fuel r2
    match expectChar ',' r3 with
    | some r4 =>
      match parseFields fuel r4 with
      | some (fs, r5) => pure ((f, t) :: fs, r5)
      | none => pure ([(f, t)], r3)
    | none => pure ([(f, t)], r3)

/-- `type ("," type)*` inside a tuple. -/
def parseTypeList : Nat → List Char → Option (List HailType × List Char)
  | 0, _ => none
  | fuel + 1, cs => do
    let (t, r1) ← parseType fuel cs
    match expectChar ',' r1 with
    | some r2 =>
      match parseTypeList fuel r2 with
      | some (ts, r3) => pure (t :: ts, r3)
      | none => pure ([t], r1)
    | none => pure ([t], r1)

end

/-- Modelled from the spec: `dtype` (the parsimonious grammar and its node
visitor live in hail/expr/type_parsing.py, not under src/), as
recursive-descent over the published grammar; parsing succeeds only when
the whole input is consumed.  The fuel is ample: the parser consumes input
at every nesting level. -/
def dtypeParse (s : String) : Option HailType :=
  match parseType (4 * s.data.length + 8) s.data with
  | some (t, []) => some t
  | _ => none

/-! ## Theorems -/

/-- Equal Type Nodes (in the `==` sense) have the same head constructor:
every `_eq` starts with an `isinstance` check of its own class. -/
theorem heq_ctorIdx (a b : HailType) (h : heq a b = true) : ctorIdx a = ctorIdx b := by
  cases a <;> cases b <;> simp_all [heq, ctorIdx]

/-- Every constraint predicate of `_cond_map` depends only on the head
constructor of its argument, so `==`-equal types satisfy the same
constraints. -/
theorem condCheck_respects_heq (c : Option CondTag) (a b : HailType)
    (h : heq a b = true) : condCheck c a = condCheck c b := by
  rcases c with _ | tag
  · rfl
  · cases tag <;> (cases a <;> cases b <;> simp_all [heq, condCheck, is_numeric])

theorem lookupBox_boxClear (s : BoxState) (n : String) :
    lookupBox (boxClear s n) n = none := by
  induction s with
  | nil => rfl
  | cons hd tl ih =>
    by_cases h : hd.1 = n
    · simpa [boxClear, h] using ih
    · simpa [boxClear, lookupBox, h] using ih

/-- C2: `unify(candidate)` on a type variable is the two-state machine of
the claim.  Unbound: a failing constraint returns `False` and leaves the
variable unbound; otherwise it binds the candidate and returns `True`.
Bound (necessarily to a value that passed the variable's constraint):
it returns `True` exactly when the candidate `==` the bound value, leaving
the binding unchanged.  The concrete scenario: `?x:numeric` unified against
`int32` binds; the same (uncleared) variable against `str` fails; after
`clear()`, `str` fails on the constraint while `int64` succeeds. -/
theorem tvariable_unify_state_machine :
    (∀ (c : Option CondTag) (n : String) (t : HailType) (s : BoxState),
      lookupBox s n = none →
        (condCheck c t = false → tvariableUnify c n t s = (false, s)) ∧
        (condCheck c t = true →
          tvariableUnify c n t s = (true, (n, t) :: s) ∧
          lookupBox ((n, t) :: s) n = some t)) ∧
    (∀ (c : Option CondTag) (n : String) (t b : HailType) (s : BoxState),
      lookupBox s n = some b → condCheck c b = true →
        tvariableUnify c n t s = (heq b t, s)) ∧
    tvariableUnify (some .numeric) "x" .tint32 [] = (true, [("x", .tint32)]) ∧
    tvariableUnify (some .numeric) "x" .tstr [("x", .tint32)]
      = (false, [("x", .tint32)]) ∧
    tvariableClear "x" [("x", .tint32)] = [] ∧
    tvariableUnify (some .numeric) "x" .tstr [] = (false, []) ∧
    tvariableUnify (some .numeric) "x" .tint64 [] = (true, [("x", .tint64)]) := by
  refine ⟨?_, ?_, rfl, rfl, rfl, rfl, rfl⟩
  · intro c n t s hfree
    constructor
    · intro hfail
      simp [tvariableUnify, hfail]
    · intro hpass
      simp [tvariableUnify, hpass, boxUnify, hfree, lookupBox]
  · intro c n t b s hbound hcond
    by_cases hct : condCheck c t = true
    · simp [tvariableUnify, hct, boxUnify, hbound]
    · have hbt : heq b t = false := by
        cases hbt : heq b t
        · rfl
        · rw [condCheck_respects_heq c b t hbt] at hcond
          exact absurd hcond hct
      simp [tvariableUnify, hct, hbt]

/-- C8: variables are identified purely by name in the shared registry, so
two independently constructed variables with the same name `n` read and
write one binding cell.  Once the first is bound to `t`, unifying the second
against `t` succeeds without changing the state, unifying it against any
`u` with `u != t` fails, and `clear()` through either variable unbinds the
shared cell.  (`heq t t = true` holds for every variable-free `t`; it is a
hypothesis because Python `==` on a Type Node containing a type variable is
degenerate.) -/
theorem shared_box_by_name (n : String) (t u : HailType) (s : BoxState)
    (hfree : lookupBox s n = none) (hrefl : heq t t = true)
    (hne : heq t u = false) :
    tvariableUnify none n t s = (true, (n, t) :: s) ∧
    tvariableUnify none n t ((n, t) :: s) = (true, (n, t) :: s) ∧
    tvariableUnify none n u ((n, t) :: s) = (false, (n, t) :: s) ∧
    lookupBox (tvariableClear n ((n, t) :: s)) n = none := by
  refine ⟨?_, ?_, ?_, ?_⟩
  · simp [tvariableUnify, condCheck, boxUnify, hfree]
  · simp [tvariableUnify, condCheck, boxUnify, lookupBox, hrefl]
  · simp [tvariableUnify, condCheck, boxUnify, lookupBox, hne]
  · exact lookupBox_boxClear _ _

/-- Witness for C8 at name `x`, bound value `int32`, mismatching
candidate `str`, starting from the empty registry. -/
theorem shared_box_by_name_witness :
    tvariableUnify none "x" .tint32 [] = (true, [("x", .tint32)]) ∧
    tvariableUnify none "x" .tint32 [("x", .tint32)]
      = (true, [("x", .tint32)]) ∧
    tvariableUnify none "x" .tstr [("x", .tint32)]
      = (false, [("x", .tint32)]) ∧
    lookupBox (tvariableClear "x" [("x", .tint32)]) "x" = none :=
  shared_box_by_name "x" .tint32 .tstr [] rfl rfl rfl

theorem heqFields_iff (fs gs : List (String × HailType)) :
    heqFields fs gs = true ↔
      fs.map Prod.fst = gs.map Prod.fst ∧ fs.length = gs.length ∧
      ∀ p ∈ fs.zip gs, heq p.1.2 p.2.2 = true := by
  induction fs generalizing gs with
  | nil => cases gs <;> simp [heqFields]
  | cons hd tl ih =>
    cases gs with
    | nil => simp [heqFields]
    | cons hd2 tl2 =>
      obtain ⟨f, t⟩ := hd
      obtain ⟨g, u⟩ := hd2
      simp [heqFields, ih, and_assoc]
      aesop

/-- C5: struct and union equality is field-order-sensitive.  Two structs
(or unions) compare `==`-equal exactly when their field-name sequences are
identical in order and the field types are pointwise equal; in particular
`struct{a: int32, b: str} != struct{b: str, a: int32}` even though the two
field sets and the per-name field types coincide. -/
theorem struct_union_eq_order_sensitive :
    (∀ fs gs, heq (.tstruct fs) (.tstruct gs) = true ↔
      fs.map Prod.fst = gs.map Prod.fst ∧ fs.length = gs.length ∧
      ∀ p ∈ fs.zip gs, heq p.1.2 p.2.2 = true) ∧
    (∀ fs gs, heq (.tunion fs) (.tunion gs) = true ↔
      fs.map Prod.fst = gs.map Prod.fst ∧ fs.length = gs.length ∧
      ∀ p ∈ fs.zip gs, heq p.1.2 p.2.2 = true) ∧
    heq (.tstruct [("a", .tint32), ("b", .tstr)])
        (.tstruct [("b", .tstr), ("a", .tint32)]) = false ∧
    lookupField [("a", HailType.tint32), ("b", HailType.tstr)] "a"
      = lookupField [("b", HailType.tstr), ("a", HailType.tint32)] "a" ∧
    lookupField [("a", HailType.tint32), ("b", HailType.tstr)] "b"
      = lookupField [("b", HailType.tstr), ("a", HailType.tint32)] "b" := by
  refine ⟨?_, ?_, rfl, rfl, rfl⟩
  · intro fs gs
    simpa [heq] using heqFields_iff fs gs
  · intro fs gs
    simpa [heq] using heqFields_iff fs gs

/-- C9: `tndarray._eq` compares only the element types, so NDArray equality
disregards rank: `ndarray<int32, 1> == ndarray<int32, 2>` even though the
two Type Nodes are structurally distinct. -/
theorem ndarray_eq_ignores_ndim :
    (∀ (e1 e2 : HailType) (n1 n2 : Nat),
      heq (.tndarray e1 n1) (.tndarray e2 n2) = heq e1 e2) ∧
    heq (.tndarray .tint32 1) (.tndarray .tint32 2) = true ∧
    HailType.tndarray .tint32 1 ≠ HailType.tndarray .tint32 2 := by
  refine ⟨fun e1 e2 n1 n2 => rfl, rfl, by simp⟩

/-- C3: `null` passes through the codec untouched in both directions, for
every Type Node `t`: `_convert_to_json_na` and `_convert_from_json_na`
return `None` before dispatching to any variant-specific converter, so
`decode(t, encode(t, null)) == null`. -/
theorem codec_null_passthrough (t : HailType) :
    convertToJsonNa t .null = some .jnull ∧
    convertFromJsonNa t .jnull = some .null ∧
    (convertToJsonNa t .null).bind (convertFromJsonNa t) = some .null := by
  refine ⟨?_, ?_, ?_⟩ <;> simp [convertToJsonNa, convertFromJsonNa]

/-- C4 counterexample: the claim's wire spelling is wrong.  Encoding NaN at
float64 produces the Python `str()` spelling `"nan"`, not the claimed
`"NaN"` (and likewise `"inf"` / `"-inf"`, not `"Infinity"` /
`"-Infinity"`). -/
theorem float_nan_spelling_counterexample :
    convertToJsonNa .tfloat64 (.float .nan) = some (.jstr "nan") ∧
    convertToJsonNa .tfloat64 (.float .nan) ≠ some (.jstr "NaN") := by
  have h : convertToJsonNa .tfloat64 (.float .nan) = some (.jstr "nan") := by
    simp [convertToJsonNa, convertToJson, floatToJson, mathIsFinite, pyStrNonFinite]
  refine ⟨h, ?_⟩
  rw [h]
  intro hc
  simp only [Option.some.injEq, JValue.jstr.injEq] at hc
  exact absurd hc (by decide)

/-- C4 (amended): a finite float encodes as the native JSON number and a
non-finite float as the string spelling produced by Python `str()`
(`"nan"`, `"inf"`, `"-inf"`); decode applies `float()`, which reconstructs
the original from either shape, so `decode(t, encode(t, v)) == v` for every
float value `v` at float32 and float64 — NaN included, since `PyFloat.nan`
is a distinguished constructor and Lean equality on it is exactly the
claim's NaN-equals-NaN value equality. -/
theorem float_codec_roundtrip :
    (∀ q : ℚ,
      convertToJsonNa .tfloat64 (.float (.finite q)) = some (.jfloat (.finite q)) ∧
      convertToJsonNa .tfloat32 (.float (.finite q)) = some (.jfloat (.finite q))) ∧
    convertToJsonNa .tfloat64 (.float .nan) = some (.jstr "nan") ∧
    convertToJsonNa .tfloat64 (.float .inf) = some (.jstr "inf") ∧
    convertToJsonNa .tfloat64 (.float .ninf) = some (.jstr "-inf") ∧
    (∀ f : PyFloat,
      (convertToJsonNa .tfloat64 (.float f)).bind (convertFromJsonNa .tfloat64)
        = some (.float f) ∧
      (convertToJsonNa .tfloat32 (.float f)).bind (convertFromJsonNa .tfloat32)
        = some (.float f)) := by
  refine ⟨?_, ?_, ?_, ?_, ?_⟩
  · intro q
    constructor <;>
      simp [convertToJsonNa, convertToJson, floatToJson, mathIsFinite]
  · simp [convertToJsonNa, convertToJson, floatToJson, mathIsFinite, pyStrNonFinite]
  · simp [convertToJsonNa, convertToJson, floatToJson, mathIsFinite, pyStrNonFinite]
  · simp [convertToJsonNa, convertToJson, floatToJson, mathIsFinite, pyStrNonFinite]
  · intro f
    have hnan : pyFloatOfString "nan" = some .nan := rfl
    have hinf : pyFloatOfString "inf" = some .inf := rfl
    have hninf : pyFloatOfString "-inf" = some .ninf := rfl
    cases f <;>
      constructor <;>
        simp [convertToJsonNa, convertToJson, convertFromJsonNa, convertFromJson,
          floatToJson, floatFromJson, mathIsFinite, pyStrNonFinite,
          hnan, hinf, hninf]

/-- Helper for C6: entry-wise encode of a dict value succeeds, has the
`{key, value}` object shape in iteration order, and entry-wise decode
reconstructs the original entries, given that each key and each value
round-trips at its declared type. -/
theorem dictEntries_roundtrip (kt vt : HailType) (m : List (Value × Value))
    (h : ∀ p ∈ m, (convertToJson kt p.1).bind (convertFromJsonNa kt) = some p.1 ∧
                  (convertToJson vt p.2).bind (convertFromJsonNa vt) = some p.2) :
    ∃ js, dictEntriesToJson kt vt m = some js ∧
      js.length = m.length ∧
      (∀ j ∈ js, ∃ jk jv, j = .jobj [("key", jk), ("value", jv)]) ∧
      dictEntriesFromJson kt vt js = some m := by
  induction m with
  | nil =>
    refine ⟨[], ?_, rfl, ?_, ?_⟩
    · simp [dictEntriesToJson]
    · intro j hj
      simp at hj
    · simp [dictEntriesFromJson]
  | cons p rest ih =>
    obtain ⟨a, b⟩ := p
    obtain ⟨h1, h2⟩ := h (a, b) (by simp)
    rw [Option.bind_eq_some] at h1 h2
    obtain ⟨ja, hja, hda⟩ := h1
    obtain ⟨jb, hjb, hdb⟩ := h2
    obtain ⟨js, hjs, hlen, hshape, hdec⟩ := ih (fun p hp => h p (by simp [hp]))
    refine ⟨.jobj [("key", ja), ("value", jb)] :: js, ?_, ?_, ?_, ?_⟩
    · simp [dictEntriesToJson, hja, hjb, hjs]
    · simp [hlen]
    · intro j hj
      rw [List.mem_cons] at hj
      rcases hj with rfl | hj
      · exact ⟨ja, jb, rfl⟩
      · exact hshape j hj
    · simp [dictEntriesFromJson, lookupJ, hda, hdb, hdec]

/-- C6: a dict encodes as a JSON array of `{"key": ..., "value": ...}`
objects, one per entry in iteration order — not as a JSON object — and
decoding that array reconstructs an equal mapping (given each key/value
round-trips at its type, as the recursive codec provides).  Concretely,
`{1: "a", 2: "b"}` at `dict<int32, str>` encodes to
`[{"key":1,"value":"a"},{"key":2,"value":"b"}]` and decodes back. -/
theorem dict_codec_shape_roundtrip :
    (∀ (kt vt : HailType) (m : List (Value × Value)),
      (∀ p ∈ m, (convertToJson kt p.1).bind (convertFromJsonNa kt) = some p.1 ∧
                (convertToJson vt p.2).bind (convertFromJsonNa vt) = some p.2) →
      ∃ js, convertToJsonNa (.tdict kt vt) (.dict m) = some (.jarr js) ∧
        js.length = m.length ∧
        (∀ j ∈ js, ∃ jk jv, j = .jobj [("key", jk), ("value", jv)]) ∧
        convertFromJsonNa (.tdict kt vt) (.jarr js) = some (.dict m)) ∧
    convertToJsonNa (.tdict .tint32 .tstr)
        (.dict [(.int 1, .str "a"), (.int 2, .str "b")])
      = some (.jarr [.jobj [("key", .jint 1), ("value", .jstr "a")],
                     .jobj [("key", .jint 2), ("value", .jstr "b")]]) ∧
    convertFromJsonNa (.tdict .tint32 .tstr)
        (.jarr [.jobj [("key", .jint 1), ("value", .jstr "a")],
                .jobj [("key", .jint 2), ("value", .jstr "b")]])
      = some (.dict [(.int 1, .str "a"), (.int 2, .str "b")]) := by
  refine ⟨?_, ?_, ?_⟩
  · intro kt vt m h
    obtain ⟨js, hjs, hlen, hshape, hdec⟩ := dictEntries_roundtrip kt vt m h
    refine ⟨js, ?_, hlen, hshape, ?_⟩
    · simp [convertToJsonNa, convertToJson, hjs]
    · simp [convertFromJsonNa, convertFromJson, hdec]
  · simp [convertToJsonNa, convertToJson, dictEntriesToJson, valueToJ]
  · simp [convertFromJsonNa, convertFromJson, dictEntriesFromJson, lookupJ, jToValue]

/-- C7 (code bug): `tstruct.unify` behaves exactly as claimed — same
variant, same field count, positional walk comparing names and recursively
unifying types, boolean `False` on any mismatch (shown here on equal
structs, a renamed field, reordered fields, a non-struct candidate, and a
variable field that gets bound) — but `tunion.unify` evaluates
`isinstance(t, union)` where `union` is an undefined name in types.py, so
unifying a union against anything (even an identical union) raises
`NameError` instead of returning a boolean. -/
theorem unify_struct_bool_union_nameerror :
    unify (.tstruct [("a", .tint32), ("b", .tstr)])
          (.tstruct [("a", .tint32), ("b", .tstr)]) [] = .ok (true, []) ∧
    unify (.tstruct [("a", .tint32)]) (.tstruct [("b", .tint32)]) []
      = .ok (false, []) ∧
    unify (.tstruct [("a", .tint32), ("b", .tstr)])
          (.tstruct [("b", .tstr), ("a", .tint32)]) [] = .ok (false, []) ∧
    unify (.tstruct [("a", .tint32)]) .tint32 [] = .ok (false, []) ∧
    unify (.tstruct [("a", .tint32), ("b", .tstr)])
          (.tstruct [("a", .tint32)]) [] = .ok (false, []) ∧
    unify (.tstruct [("a", .tvariable "x" none)])
          (.tstruct [("a", .tint64)]) [] = .ok (true, [("x", .tint64)]) ∧
    unify (.tunion [("a", .tint32)]) (.tunion [("a", .tint32)]) []
      = .error (.nameError "union") := by
  refine ⟨?_, ?_, ?_, ?_, ?_, ?_, ?_⟩ <;>
    simp [unify, unifyFields, heq, tvariableUnify, condCheck, boxUnify,
      lookupBox] <;>
    rfl

/-- C10 counterexample: `typecheck` at a struct type with the falsy
non-Mapping value `[]` does not succeed silently — the one-level check is
skipped (truthiness guard), but the traversal then calls `.items()` on the
list, raising `AttributeError`. -/
theorem typecheck_struct_falsy_list_raises :
    typecheck (.tstruct [("a", .tint32)]) (.list []) = .error .attributeError ∧
    typecheck (.tstruct [("a", .tint32)]) (.list []) ≠ .ok () := by
  have h : typecheck (.tstruct [("a", .tint32)]) (.list [])
      = .error .attributeError := rfl
  refine ⟨h, ?_⟩
  rw [h]
  intro hc
  exact Except.noConfusion hc

/-- C10 (amended): the one-level checks of str, struct and tuple are
guarded on the value's truthiness rather than on non-nullness, so every
falsy value skips validation; `typecheck(str, 0)` and
`typecheck(tuple, "")` therefore succeed silently, and so does a falsy
Mapping such as `{}` at a struct type — but a falsy non-Mapping such as
`[]` at a struct type raises `AttributeError` in the traversal
(`obj.items()`) even though the one-level validation was skipped. -/
theorem typecheck_falsy_skip :
    (∀ v, pythonTruthy v = false →
      typecheckOneLevel .tstr v = .ok () ∧
      (∀ fields, typecheckOneLevel (.tstruct fields) v = .ok ()) ∧
      (∀ ts, typecheckOneLevel (.ttuple ts) v = .ok ())) ∧
    typecheck .tstr (.int 0) = .ok () ∧
    typecheck (.ttuple [.tint32]) (.str "") = .ok () ∧
    typecheck (.tstruct [("a", .tint32)]) (.dict []) = .ok () ∧
    typecheck (.tstruct [("a", .tint32)]) (.list []) = .error .attributeError := by
  refine ⟨?_, rfl, rfl, rfl, rfl⟩
  intro v hv
  refine ⟨?_, ?_, ?_⟩
  · simp [typecheckOneLevel, hv]
  · intro fields
    simp [typecheckOneLevel, hv]
  · intro ts
    simp [typecheckOneLevel, hv]

/-- C1 (code bug): the display form of a locus Type Node does not
re-parse.  `tlocus.__str__` prints `locus<GRCh37>` with angle brackets
while the published grammar's locus rule reads `locus[GRCh37]` with square
brackets (both in the spec and in dtype's own docstring, which also states
that `dtype` reverses `str(t)`), so `parse(display_form(t))` fails on every
locus node — even though the bracketed spelling parses fine and the other
variants here, the ndarray included, round-trip. -/
theorem dtype_locus_display_not_parsable :
    displayStr (.tlocus "GRCh37") = "locus<GRCh37>" ∧
    dtypeParse "locus<GRCh37>" = none ∧
    dtypeParse "locus[GRCh37]" = some (.tlocus "GRCh37") ∧
    dtypeParse (displayStr (.tarray .tint32)) = some (.tarray .tint32) ∧
    dtypeParse (displayStr (.tstruct [("a", .tint32), ("b", .tstr)]))
      = some (.tstruct [("a", .tint32), ("b", .tstr)]) ∧
    dtypeParse (displayStr (.tndarray .tint32 2)) = some (.tndarray .tint32 2) ∧
    dtypeParse (displayStr (.tdict .tint32 .tstr)) = some (.tdict .tint32 .tstr) ∧
    dtypeParse (displayStr (.tlocus "GRCh37")) = none := by
  exact ⟨rfl, rfl, rfl, rfl, rfl, rfl, rfl, rfl⟩
